import Mathlib

/-!
Verification development for the `.proto` schema parser
(`ProtoBuf.DotProto.Parser`, `src/unnamed/part_000`).

The parser consumes a token stream produced by a tokenizer.  The tokenizer
and the lexical grammar table (`Lang`) are not part of the sources under
verification, so they are modelled from the specification: a source unit is
represented directly as a list of tokens, each tagged with its 1-based line
number, and the lexical pattern classes are defined following the spec's
descriptions (decimal / hex / octal / float numeric forms, identifier and
type-reference grammars, structural punctuation).

The parser itself (`parse`, `parseNumber`, `parseId`, `parsePackage`,
`parseImport`, `parseOption`, `parseIgnoredStatement`, `parseService`,
`parseServiceRPC`, `parseMessage`, `parseMessageField`, `parseFieldOptions`,
`parseFieldOption`, `parseEnum`, `parseEnumValue`, `parseExtensions`,
`parseExtend`) is translated function-by-function from the source.  Thrown
JS `Error`s become `Except.error` values carrying the cited line (if any)
and the message text; mutation of the AST under construction becomes
explicit state passing.  Loops and recursion are driven by a fuel
parameter; fuel exhaustion is an embedding artifact and reports the
current line.
-/

namespace DotProto

/-! ## Lexical grammar (modelled from the spec) -/

def isLetterCh (c : Char) : Bool :=
  (('a' ≤ c) && (c ≤ 'z')) || (('A' ≤ c) && (c ≤ 'Z'))

def isDigitCh (c : Char) : Bool := ('0' ≤ c) && (c ≤ '9')

def isHexCh (c : Char) : Bool :=
  isDigitCh c || (('a' ≤ c) && (c ≤ 'f')) || (('A' ≤ c) && (c ≤ 'F'))

def isOctCh (c : Char) : Bool := ('0' ≤ c) && (c ≤ '7')

def isNameCh (c : Char) : Bool := isLetterCh c || isDigitCh c || (c == '_')

/-- Prefix test on strings (structural stand-in for `String.startsWith`). -/
def strStartsWith (s p : String) : Bool := p.toList.isPrefixOf s.toList

/-- Split a character list at every occurrence of a separator. -/
def splitChar (sep : Char) : List Char → List (List Char)
  | [] => [[]]
  | c :: t =>
    if c == sep then [] :: splitChar sep t
    else
      match splitChar sep t with
      | [] => [[c]]
      | h :: r => (c :: h) :: r

/-- Split a string at every occurrence of a separator character
(structural stand-in for `String.splitOn` with a one-character
separator). -/
def strSplitOn (s : String) (sep : Char) : List String :=
  (splitChar sep s.toList).map String.mk

def lowerCh (c : Char) : Char :=
  if (('A' ≤ c) && (c ≤ 'Z')) then Char.ofNat (c.toNat + 32) else c

/-- ASCII lower-casing (structural stand-in for `String.toLower`). -/
def strToLower (s : String) : String := String.mk (s.toList.map lowerCh)

/-- Modelled from the spec: simple name — must not begin with a digit,
alphanumeric/underscore (`Lang.NAME`, not under `src/`). -/
def NAME_test (s : String) : Bool :=
  match s.toList with
  | [] => false
  | c :: cs => (isLetterCh c || (c == '_')) && cs.all isNameCh

/-- Modelled from the spec: type reference — an identifier, possibly
dot-qualified, e.g. `a.b.C` (`Lang.TYPEREF`, not under `src/`). -/
def TYPEREF_test (s : String) : Bool :=
  (strSplitOn s '.').all NAME_test

/-- Modelled from the spec: fully-qualified continuation form used when
extending a parenthesized custom-option name with a trailing dotted
suffix, e.g. `.baz` (`Lang.FQTYPEREF`, not under `src/`). -/
def FQTYPEREF_test (s : String) : Bool :=
  strStartsWith s "." && TYPEREF_test (s.drop 1)

/-- Modelled from the spec: built-in scalar type keywords
(`Lang.TYPE`, not under `src/`). -/
def TYPE_test (s : String) : Bool :=
  ["double", "float", "int32", "uint32", "sint32", "int64", "uint64",
   "sint64", "fixed32", "sfixed32", "fixed64", "sfixed64", "bool",
   "string", "bytes"].contains s

/-- Modelled from the spec: field rule keywords (`Lang.RULE`, not under
`src/`). -/
def RULE_test (s : String) : Bool :=
  (s == "required") || (s == "optional") || (s == "repeated")

/-- Modelled from the spec: boolean literal, case-insensitive
(`Lang.BOOL`, not under `src/`). -/
def BOOL_test (s : String) : Bool :=
  (strToLower s == "true") || (strToLower s == "false")

/-- Modelled from the spec: decimal integer literal — `0` or a nonempty
digit string without a leading zero (`Lang.NUMBER_DEC`, not under
`src/`). -/
def NUMBER_DEC_test (s : String) : Bool :=
  (s == "0") ||
    (match s.toList with
     | [] => false
     | c :: cs => isDigitCh c && !(c == '0') && cs.all isDigitCh)

/-- Modelled from the spec: `0x`-prefixed hex integer literal
(`Lang.NUMBER_HEX`, not under `src/`). -/
def NUMBER_HEX_test (s : String) : Bool :=
  strStartsWith s "0x" && !(s.drop 2).isEmpty && (s.drop 2).toList.all isHexCh

/-- Modelled from the spec: leading-zero octal integer literal
(`Lang.NUMBER_OCT`, not under `src/`). -/
def NUMBER_OCT_test (s : String) : Bool :=
  strStartsWith s "0" && !(s.drop 1).isEmpty && (s.drop 1).toList.all isOctCh

def expPartOk (x : String) : Bool :=
  match x.toList with
  | [] => false
  | c :: cs =>
    if (c == '+') || (c == '-') then !cs.isEmpty && cs.all isDigitCh
    else (c :: cs).all isDigitCh

def mantissaOk (m : String) : Bool :=
  match strSplitOn m '.' with
  | [a, b] => a.toList.all isDigitCh && !b.isEmpty && b.toList.all isDigitCh
  | _ => false

/-- Modelled from the spec: floating-point literal — digits, a decimal
point, more digits, and an optional exponent (`Lang.NUMBER_FLT`, not under
`src/`). -/
def NUMBER_FLT_test (s : String) : Bool :=
  match strSplitOn s 'e' with
  | [m, x] => mantissaOk m && expPartOk x
  | [m] =>
    (match strSplitOn m 'E' with
     | [m2, x] => mantissaOk m2 && expPartOk x
     | [m3] => mantissaOk m3
     | _ => false)
  | _ => false

/-- Modelled from the spec: general numeric literal — optional sign, then
any of the four numeric forms (`Lang.NUMBER`, not under `src/`). -/
def NUMBER_test (s : String) : Bool :=
  let v := if strStartsWith s "-" then s.drop 1 else s
  NUMBER_DEC_test v || NUMBER_HEX_test v || NUMBER_OCT_test v ||
    NUMBER_FLT_test v

def listHasInfix (pat : List Char) : List Char → Bool
  | [] => pat.isEmpty
  | c :: t => pat.isPrefixOf (c :: t) || listHasInfix pat t

/-- Mirrors the source's `/google\.protobuf\./.test(token)` substring
test used to tolerate `google.protobuf.*` option names. -/
def containsGoogleProtobuf (s : String) : Bool :=
  listHasInfix "google.protobuf.".toList s.toList

namespace Lang

/-- Modelled from the spec: structural tokens (`Lang`, not under `src/`),
with the conventional `.proto` glyphs. -/
def OPEN : String := "\x7b"

def CLOSE : String := "\x7d"

def OPTOPEN : String := "["

def OPTCLOSE : String := "]"

def OPTEND : String := ","

def EQUAL : String := "="

def END : String := ";"

def STRINGOPEN : String := "\""

def STRINGOPEN_SQ : String := "\x27"

def COPTOPEN : String := "("

def COPTCLOSE : String := ")"

end Lang

/-- Modelled from the spec: the IDL's minimum allowed field number
sentinel (`ProtoBuf.ID_MIN`, not under `src/`). -/
def ID_MIN : ℚ := 1

/-- Modelled from the spec: the IDL's maximum allowed field number
sentinel (`ProtoBuf.ID_MAX`, not under `src/`). -/
def ID_MAX : ℚ := 536870911

/-! ## Token stream (modelled from the spec) -/

/-- Modelled from the spec: the tokenizer (not under `src/`) is a
single-pass cursor over line-tagged tokens with one token of lookahead;
`line` is the line of the most recently returned token and
`stringEndsWith` remembers which quote delimiter must close the string
currently being read. -/
structure TokState where
  toks : List (String × Nat)
  line : Nat := 1
  stringEndsWith : String := ""
deriving Repr, DecidableEq

/-- Modelled from the spec: `next()` returns the next token (or none at
end of input) and advances; returning a quote token records it as the
expected string closer. -/
def next (st : TokState) : Option String × TokState :=
  match st.toks with
  | [] => (none, st)
  | (t, l) :: rest =>
    let sew := if (t == Lang.STRINGOPEN) || (t == Lang.STRINGOPEN_SQ)
               then t else st.stringEndsWith
    (some t, ⟨rest, l, sew⟩)

/-- Modelled from the spec: `peek()` returns the next token without
advancing, idempotently. -/
def peek (st : TokState) : Option String :=
  match st.toks with
  | [] => none
  | (t, _) :: _ => some t

/-- A syntax error: the cited 1-based line (if the message cites one) and
the message text. -/
structure ParseErr where
  line : Option Nat
  msg : String
deriving Repr, DecidableEq

def errL (st : TokState) (m : String) : ParseErr := ⟨some st.line, m⟩

/-- Fuel exhaustion (an artifact of the fuel-driven embedding of the
source's loops); reports the current line like a stream error. -/
def fuelErr (st : TokState) : ParseErr := errL st "Out of fuel"

/-- Modelled from the spec: end of input where a token was required
surfaces as a syntax error citing the current line.  This reader is used
at the sites where the source's subsequent comparison or regex test on
the `null` end-of-input token flows into a `throw` that cites
`this.tn.line` (with the token rendered as the string `null`). -/
def nextTok (st : TokState) : Except ParseErr (String × TokState) :=
  match next st with
  | (none, st2) => .error (errL st2 "Unexpected end of input")
  | (some t, st2) => .ok (t, st2)

/-- At a few sites the source uses the raw `next()` result without any
null check — `token.toLowerCase()` at the RPC `returns` position, and
`val.charAt(0)` inside `_parseNumber` for the extensions range bounds —
so end of input makes JS dereference `null` and fail with a TypeError
that carries no line number.  `tyErr` is the resulting line-less
message. -/
def nextTokUnchecked (st : TokState) (tyErr : String) :
    Except ParseErr (String × TokState) :=
  match next st with
  | (none, _) => .error ⟨none, tyErr⟩
  | (some t, st2) => .ok (t, st2)

/-- Convenience for building a token stream with every token on line 1. -/
def mkToks (l : List String) : TokState :=
  ⟨l.map (fun s => (s, 1)), 1, ""⟩

/-! ## AST -/

/-- An option value: quoted string, number, boolean, or a bare
type-reference-shaped token used verbatim. -/
inductive Value where
  | str : String → Value
  | num : ℚ → Value
  | boolean : Bool → Value
  | ref : String → Value
deriving Repr, DecidableEq

/-- JS object assignment on a string-keyed record: replace in place if the
key exists, else append. -/
def setAssoc {α : Type} (l : List (String × α)) (k : String) (v : α) :
    List (String × α) :=
  if l.any (fun p => p.1 == k) then
    l.map (fun p => if p.1 == k then (k, v) else p)
  else l ++ [(k, v)]

structure Field where
  rule : String := ""
  type : String := ""
  name : String := ""
  id : Int := 0
  options : List (String × Value) := []
deriving Repr, DecidableEq

structure EnumValue where
  name : String := ""
  id : Int := 0
deriving Repr, DecidableEq

structure Enum where
  name : String := ""
  values : List EnumValue := []
  options : List (String × Value) := []
deriving Repr, DecidableEq

structure Method where
  request : Option String := none
  response : Option String := none
  options : List (String × Value) := []
deriving Repr, DecidableEq

/-- A service; the source stores RPC methods under `svc[type][name]` where
the kind keyword `type` is always `"rpc"` at the only call site, so the
kind level is collapsed into the `rpc` map. -/
structure Service where
  name : String := ""
  rpc : List (String × Method) := []
  options : List (String × Value) := []
deriving Repr, DecidableEq

/-- A message; extend blocks are structurally messages carrying a `ref`
to the extended type (the source pushes them into the same `messages`
array). -/
inductive Message where
  | mk : String → List Field → List Enum → List Message →
      List (String × Value) → Option (List ℚ) → Bool → Option String →
      Message
deriving Repr

def Message.name : Message → String
  | .mk n _ _ _ _ _ _ _ => n

def Message.fields : Message → List Field
  | .mk _ f _ _ _ _ _ _ => f

def Message.enums : Message → List Enum
  | .mk _ _ e _ _ _ _ _ => e

def Message.messages : Message → List Message
  | .mk _ _ _ m _ _ _ _ => m

def Message.options : Message → List (String × Value)
  | .mk _ _ _ _ o _ _ _ => o

def Message.extensions : Message → Option (List ℚ)
  | .mk _ _ _ _ _ x _ _ => x

def Message.isGroup : Message → Bool
  | .mk _ _ _ _ _ _ g _ => g

def Message.ref : Message → Option String
  | .mk _ _ _ _ _ _ _ r => r

def Message.pushField : Message → Field → Message
  | .mk n f e m o x g r, fld => .mk n (f ++ [fld]) e m o x g r

def Message.pushEnum : Message → Enum → Message
  | .mk n f e m o x g r, enm => .mk n f (e ++ [enm]) m o x g r

def Message.pushMessage : Message → Message → Message
  | .mk n f e m o x g r, m2 => .mk n f e (m ++ [m2]) o x g r

def Message.setOption : Message → String → Value → Message
  | .mk n f e m o x g r, k, v => .mk n f e m (setAssoc o k v) x g r

def Message.setExtensions : Message → List ℚ → Message
  | .mk n f e m o _ g r, x => .mk n f e m o (some x) g r

structure TopLevel where
  package : Option String := none
  messages : List Message := []
  enums : List Enum := []
  imports : List String := []
  options : List (String × Value) := []
  services : List Service := []
deriving Repr

/-! ## Numeric parsing (`Parser.prototype._parseNumber`, `_parseId`) -/

def decVal (l : List Char) : Nat :=
  l.foldl (fun a c => a * 10 + (c.toNat - 48)) 0

def hexDigitVal (c : Char) : Nat :=
  if isDigitCh c then c.toNat - 48
  else if ('a' ≤ c) && (c ≤ 'f') then c.toNat - 87
  else c.toNat - 55

def hexVal (l : List Char) : Nat :=
  l.foldl (fun a c => a * 16 + hexDigitVal c) 0

def octVal (l : List Char) : Nat :=
  l.foldl (fun a c => a * 8 + (c.toNat - 48)) 0

/-- Multiplication of a rational by an integer, written with `mkRat` (the
Batteries `Rat` arithmetic operations are irreducible, which would block
evaluation inside the kernel). -/
def intMulQ (n : Int) (q : ℚ) : ℚ := mkRat (n * q.num) q.den

/-- JS `parseFloat` on a string matching the float pattern; floats are
modelled as exact decimal rationals (`a.b` is the rational
`(a·10^|b| + b) / 10^|b|`, scaled by the optional exponent). -/
def jsParseFloat (s : String) : ℚ :=
  let me : String × Option String :=
    match strSplitOn s 'e' with
    | [m, x] => (m, some x)
    | _ =>
      match strSplitOn s 'E' with
      | [m, x] => (m, some x)
      | _ => (s, none)
  let mv : ℚ :=
    match strSplitOn me.1 '.' with
    | [a, b] =>
      mkRat ((decVal a.toList * 10 ^ b.length + decVal b.toList : Nat) : Int)
        (10 ^ b.length)
    | _ => 0
  match me.2 with
  | none => mv
  | some x =>
    let neg := strStartsWith x "-"
    let digs := if strStartsWith x "-" || strStartsWith x "+" then x.drop 1 else x
    if neg then mkRat mv.num (mv.den * 10 ^ decVal digs.toList)
    else intMulQ ((10 : Int) ^ decVal digs.toList) mv

/-- JS `|0`: coercion to a 32-bit signed integer. -/
def toInt32 (n : Int) : Int := (n + 2147483648) % 4294967296 - 2147483648

/-- `Parser.prototype._parseNumber`: strip an optional `-`, test in order
decimal / hex / octal / float, parse in the matching base, reapply the
sign. -/
def parseNumber (st : TokState) (val : String) : Except ParseErr ℚ :=
  let sign : Int := if strStartsWith val "-" then -1 else 1
  let v := if strStartsWith val "-" then val.drop 1 else val
  if NUMBER_DEC_test v then .ok (mkRat (sign * (decVal v.toList : Int)) 1)
  else if NUMBER_HEX_test v then .ok (mkRat (sign * (hexVal (v.drop 2).toList : Int)) 1)
  else if NUMBER_OCT_test v then .ok (mkRat (sign * (octVal (v.drop 1).toList : Int)) 1)
  else if NUMBER_FLT_test v then .ok (intMulQ sign (jsParseFloat v))
  else .error (errL st ("Illegal number: " ++ (if sign < 0 then "-" else "") ++ v))

/-- `Parser.prototype._parseId`: strip an optional `-`, test in order
decimal / hex / octal (no float), force the signed result into 32-bit
range with `|0`, then reject a negative result unless `neg` permits it. -/
def parseId (st : TokState) (val : String) (neg : Bool) : Except ParseErr Int :=
  let sign : Int := if strStartsWith val "-" then -1 else 1
  let v := if strStartsWith val "-" then val.drop 1 else val
  let raw : Option Int :=
    if NUMBER_DEC_test v then some (decVal v.toList)
    else if NUMBER_HEX_test v then some (hexVal (v.drop 2).toList)
    else if NUMBER_OCT_test v then some (octVal (v.drop 1).toList)
    else none
  match raw with
  | none => .error (errL st ("Illegal ID: " ++ (if sign < 0 then "-" else "") ++ v))
  | some id0 =>
    let id := toInt32 (sign * id0)
    if !neg && decide (id < 0) then
      .error (errL st ("Illegal ID: " ++ (if sign < 0 then "-" else "") ++ v))
    else .ok id

/-! ## Per-construct parsing routines -/

/-- A conditional throw: `if (cond) throw Error(e)` in a source parsing
routine becomes a bind of `guardErr cond e`. -/
def guardErr (cond : Bool) (e : ParseErr) : Except ParseErr Unit :=
  if cond then .error e else .ok ()

/-- `Parser.prototype._parsePackage`: a type-reference token, then the
statement terminator. -/
def parsePackage (st : TokState) : Except ParseErr (String × TokState) := do
  let (token, st) ← nextTok st
  let _ ← guardErr (!TYPEREF_test token)
    (errL st ("Illegal package: " ++ token))
  let pkg := token
  let (token, st) ← nextTok st
  let _ ← guardErr (token != Lang.END)
    (errL st ("Illegal end of package: " ++ token))
  return (pkg, st)

/-- `Parser.prototype._parseImport`: optional `public` keyword (consumed),
a quoted path, a matching closer, a terminator; returns only the path. -/
def parseImport (st : TokState) : Except ParseErr (String × TokState) := do
  let (token, st) ← nextTok st
  let (token, st) ← (if token == "public" then nextTok st else pure (token, st))
  let _ ← guardErr (token != Lang.STRINGOPEN && token != Lang.STRINGOPEN_SQ)
    (errL st ("Illegal import: " ++ token))
  let (imported, st) ← nextTok st
  let (token, st) ← nextTok st
  let _ ← guardErr (token != st.stringEndsWith)
    (errL st ("Illegal import: " ++ token))
  let (token, st) ← nextTok st
  let _ ← guardErr (token != Lang.END)
    (errL st ("Illegal import: " ++ token))
  return (imported, st)

/-- `Parser.prototype._parseOption`: plain or parenthesized custom option
name (parentheses kept literally in the key, with an optional dotted
continuation), `=`, then a string / number / boolean / bare reference
value and a terminator.  Returns the key-value pair; the caller stores it
on its own `options` record. -/
def parseOption (parentName : String) (st : TokState) :
    Except ParseErr ((String × Value) × TokState) := do
  let (token, st) ← nextTok st
  let custom := token == Lang.COPTOPEN
  let (token, st) ← (if custom then nextTok st else pure (token, st))
  let _ ← guardErr (!TYPEREF_test token && !containsGoogleProtobuf token)
    (errL st ("Illegal option in message " ++ parentName ++ ": " ++ token))
  let name := token
  let (token, st) ← nextTok st
  let (name, token, st) ←
    (if custom then do
      let _ ← guardErr (token != Lang.COPTCLOSE)
        (errL st ("Illegal option in message " ++ parentName ++
          ", option " ++ name ++ ": " ++ token))
      let name := Lang.COPTOPEN ++ name ++ Lang.COPTCLOSE
      let (token, st) ← nextTok st
      (if FQTYPEREF_test token then do
        let name2 := name ++ token
        let (token, st) ← nextTok st
        pure (name2, token, st)
      else
        pure (name, token, st))
    else
      pure (name, token, st))
  let _ ← guardErr (token != Lang.EQUAL)
    (errL st ("Illegal option operator in message " ++ parentName ++
      ", option " ++ name ++ ": " ++ token))
  let (token, st) ← nextTok st
  if token == Lang.STRINGOPEN || token == Lang.STRINGOPEN_SQ then do
    let (value, st) ← nextTok st
    let (token, st) ← nextTok st
    let _ ← guardErr (token != st.stringEndsWith)
      (errL st ("Illegal end of option value in message " ++ parentName ++
        ", option " ++ name ++ ": " ++ token))
    let (token, st) ← nextTok st
    let _ ← guardErr (token != Lang.END)
      (errL st ("Illegal end of option in message " ++ parentName ++
        ", option " ++ name ++ ": " ++ token))
    return ((name, Value.str value), st)
  else do
    let value ←
      (if NUMBER_test token then do
        let q ← parseNumber st token
        pure (Value.num q)
      else if BOOL_test token then
        pure (Value.boolean (token == "true"))
      else if TYPEREF_test token then
        pure (Value.ref token)
      else
        throw (errL st ("Illegal option value in message " ++ parentName ++
          ", option " ++ name ++ ": " ++ token)))
    let (token, st) ← nextTok st
    let _ ← guardErr (token != Lang.END)
      (errL st ("Illegal end of option in message " ++ parentName ++
        ", option " ++ name ++ ": " ++ token))
    return ((name, value), st)

/-- `Parser.prototype._parseIgnoredStatement`: consume and discard tokens
up to the next terminator. -/
def parseIgnoredStatement (fuel : Nat) (parentName keyword : String)
    (st : TokState) : Except ParseErr TokState :=
  match fuel with
  | 0 => .error (fuelErr st)
  | fuel + 1 =>
    match next st with
    | (none, st2) =>
      .error (errL st2 ("Unexpected EOF in " ++ parentName ++ ", " ++
        keyword ++ " (ignored)"))
    | (some token, st2) =>
      if token == Lang.END then .ok st2
      else parseIgnoredStatement fuel parentName keyword st2

/-- `Parser.prototype._parseFieldOption`: same custom-name grammar as
top-level options; the value grammar additionally lower-cases boolean
tokens; no terminator is consumed. -/
def parseFieldOption (msgName fldName : String) (token : String)
    (st : TokState) : Except ParseErr ((String × Value) × TokState) := do
  let custom := token == Lang.COPTOPEN
  let (token, st) ← (if custom then nextTok st else pure (token, st))
  let _ ← guardErr (!TYPEREF_test token)
    (errL st ("Illegal field option in message " ++ msgName ++ "#" ++
      fldName ++ ": " ++ token))
  let name := token
  let (token, st) ← nextTok st
  let (name, token, st) ←
    (if custom then do
      let _ ← guardErr (token != Lang.COPTCLOSE)
        (errL st ("Illegal custom field option name delimiter in message " ++
          msgName ++ "#" ++ fldName ++ ": " ++ token))
      let name := Lang.COPTOPEN ++ name ++ Lang.COPTCLOSE
      let (token, st) ← nextTok st
      (if FQTYPEREF_test token then do
        let name2 := name ++ token
        let (token, st) ← nextTok st
        pure (name2, token, st)
      else
        pure (name, token, st))
    else
      pure (name, token, st))
  let _ ← guardErr (token != Lang.EQUAL)
    (errL st ("Illegal field option operation in message " ++ msgName ++
      "#" ++ fldName ++ ": " ++ token))
  let (token, st) ← nextTok st
  if token == Lang.STRINGOPEN || token == Lang.STRINGOPEN_SQ then do
    let (value, st) ← nextTok st
    let (token, st) ← nextTok st
    let _ ← guardErr (token != st.stringEndsWith)
      (errL st ("Illegal end of field value in message " ++ msgName ++
        "#" ++ fldName ++ ", option " ++ name ++ ": " ++ token))
    return ((name, Value.str value), st)
  else if NUMBER_test token then do
    let q ← parseNumber st token
    return ((name, Value.num q), st)
  else if BOOL_test token then
    return ((name, Value.boolean (strToLower token == "true")), st)
  else if TYPEREF_test token then
    return ((name, Value.ref token), st)
  else
    throw (errL st ("Illegal field option value in message " ++ msgName ++
      "#" ++ fldName ++ ", option " ++ name ++ ": " ++ token))

/-- `Parser.prototype._parseFieldOptions`: the loop after a `[`; a leading
`,` before the first option is rejected; a `]` ends the list; otherwise
(after skipping an optional `,`) a single option is parsed and the loop
repeats.  `opts` accumulates the field's options record. -/
def parseFieldOptions (fuel : Nat) (msgName fldName : String)
    (opts : List (String × Value)) (first : Bool) (st : TokState) :
    Except ParseErr (List (String × Value) × TokState) :=
  match fuel with
  | 0 => .error (fuelErr st)
  | fuel + 1 => do
    let (token, st) ← nextTok st
    if token == Lang.OPTCLOSE then
      return (opts, st)
    else do
      let (token, st) ←
        (if token == Lang.OPTEND then do
          let _ ← guardErr first
            (errL st ("Illegal start of message field options in message " ++
              msgName ++ "#" ++ fldName ++ ": " ++ token))
          nextTok st
        else
          pure (token, st))
      let ((name, value), st) ← parseFieldOption msgName fldName token st
      parseFieldOptions fuel msgName fldName (setAssoc opts name value) false st

/-- `Parser.prototype._parseEnumValue`: name, `=`, an id that may be
negative (a failure is re-reported with the enum's name), optional
bracketed options which are parsed but discarded, terminator. -/
def parseEnumValue (fuel : Nat) (enmName : String) (token : String)
    (st : TokState) : Except ParseErr (EnumValue × TokState) := do
  let name := token
  let (token, st) ← nextTok st
  let _ ← guardErr (token != Lang.EQUAL)
    (errL st ("Illegal enum value operator in enum " ++ enmName ++
      ": " ++ token))
  let (token, st) ← nextTok st
  let id ←
    (match parseId st token true with
    | .error _ =>
      throw (errL st ("Illegal enum value id in enum " ++ enmName ++
        ": " ++ token))
    | .ok i => pure i)
  let (token, st) ← nextTok st
  let (token, st) ←
    (if token == Lang.OPTOPEN then do
      let (_, st) ← parseFieldOptions fuel enmName "undefined" [] true st
      nextTok st
    else
      pure (token, st))
  let _ ← guardErr (token != Lang.END)
    (errL st ("Illegal enum value delimiter in enum " ++ enmName ++
      ": " ++ token))
  return (⟨name, id⟩, st)

/-- The body loop of `Parser.prototype._parseEnum`: `option` statements or
enum values until the closing brace (a redundant terminator after it is
consumed). -/
def parseEnumBody (fuel : Nat) (enm : Enum) (st : TokState) :
    Except ParseErr (Enum × TokState) :=
  match fuel with
  | 0 => .error (fuelErr st)
  | fuel + 1 => do
    let (token, st) ← nextTok st
    if token == Lang.CLOSE then
      let st := if peek st == some Lang.END then (next st).2 else st
      return (enm, st)
    else if token == "option" then do
      let ((name, value), st) ← parseOption enm.name st
      parseEnumBody fuel { enm with options := setAssoc enm.options name value } st
    else do
      let _ ← guardErr (!NAME_test token)
        (errL st ("Illegal enum value name in enum " ++ enm.name ++
          ": " ++ token))
      let (val, st) ← parseEnumValue fuel enm.name token st
      parseEnumBody fuel { enm with values := enm.values ++ [val] } st

/-- `Parser.prototype._parseEnum`: name, open brace, then the body loop. -/
def parseEnum (fuel : Nat) (parentName : String) (st : TokState) :
    Except ParseErr (Enum × TokState) := do
  let (token, st) ← nextTok st
  let _ ← guardErr (!NAME_test token)
    (errL st ("Illegal enum name in message " ++ parentName ++ ": " ++ token))
  let name := token
  let (token, st) ← nextTok st
  let _ ← guardErr (token != Lang.OPEN)
    (errL st ("Illegal OPEN after enum " ++ name ++ ": " ++ token))
  parseEnumBody fuel ⟨name, [], []⟩ st

/-- `Parser.prototype._parseExtensions`: `<low> to <high> ;` where each
bound is `min`, `max`, or a numeric literal.  At end of input a bound
token is the null token, which `_parseNumber` dereferences via
`charAt(0)`, a line-less TypeError. -/
def parseExtensions (msgName : String) (st : TokState) :
    Except ParseErr (List ℚ × TokState) := do
  let (token, st) ← nextTokUnchecked st
    "TypeError: Cannot read property charAt of null"
  let lo ←
    (if token == "min" then pure ID_MIN
    else if token == "max" then pure ID_MAX
    else parseNumber st token)
  let (token, st) ← nextTok st
  let _ ← guardErr (token != "to")
    (errL st ("Illegal extensions delimiter in message " ++ msgName))
  let (token, st) ← nextTokUnchecked st
    "TypeError: Cannot read property charAt of null"
  let hi ←
    (if token == "min" then pure ID_MIN
    else if token == "max" then pure ID_MAX
    else parseNumber st token)
  let (token, st) ← nextTok st
  let _ ← guardErr (token != Lang.END)
    (errL st ("Illegal extension delimiter in message " ++ msgName ++
      ": " ++ token))
  return ([lo, hi], st)

/-- First character must be an uppercase letter (the source's
`/^[A-Z]/` test on group names). -/
def startsUpper (s : String) : Bool :=
  match s.toList with
  | [] => false
  | c :: _ => ('A' ≤ c) && (c ≤ 'Z')

mutual

/-- `Parser.prototype._parseMessage`: name (for a group: followed by `=`
and a field id stored on the enclosing field, and the message is marked as
a group), an optional bracketed field-options list when invoked from a
field, an open brace, then the body loop.  Returns the message and the
(possibly updated) enclosing field; the caller pushes the message onto its
own `messages` list. -/
def parseMessage (fuel : Nat) (parentName : String) (fld : Option Field)
    (token : String) (st : TokState) :
    Except ParseErr (Message × Option Field × TokState) :=
  match fuel with
  | 0 => .error (fuelErr st)
  | fuel + 1 => do
    let isGroup := token == "group"
    let (token, st) ← nextTok st
    let _ ← guardErr (!NAME_test token)
      (errL st ("Illegal " ++ (if isGroup then "group" else "message") ++
        " name in message " ++ parentName ++ ": " ++ token))
    let name := token
    let (fld, st) ←
      (if isGroup then do
        let (token, st) ← nextTok st
        let _ ← guardErr (token != Lang.EQUAL)
          (errL st ("Illegal id assignment after group " ++ name ++
            ": " ++ token))
        let (token, st) ← nextTok st
        let id ←
          (match parseId st token false with
          | .error _ =>
            -- the source reads `fld.name` before it has been assigned;
            -- JS renders the undefined property as `undefined`
            throw (errL st ("Illegal field id value for group " ++ name ++
              "#undefined: " ++ token))
          | .ok i => pure i)
        pure (fld.map (fun f => { f with id := id }), st)
      else
        pure (fld, st))
    let (token, st) ← nextTok st
    let (fld, token, st) ←
      (if token == Lang.OPTOPEN && fld.isSome then do
        let (newOpts, st) ← parseFieldOptions fuel name
          "undefined" ((fld.map Field.options).getD []) true st
        let (token, st) ← nextTok st
        pure (fld.map (fun f => { f with options := newOpts }), token, st)
      else
        pure (fld, token, st))
    let _ ← guardErr (token != Lang.OPEN)
      (errL st ("Illegal OPEN after " ++
        (if isGroup then "group" else "message") ++ " " ++ name ++ ": " ++ token))
    let (msg, st) ← parseMessageBody fuel
      (Message.mk name [] [] [] [] none isGroup none) st
    return (msg, fld, st)

/-- The body loop of `Parser.prototype._parseMessage`: fields, nested
enums/messages, options, extensions, and extend blocks until the closing
brace (a redundant terminator after it is consumed). -/
def parseMessageBody (fuel : Nat) (msg : Message) (st : TokState) :
    Except ParseErr (Message × TokState) :=
  match fuel with
  | 0 => .error (fuelErr st)
  | fuel + 1 => do
    let (token, st) ← nextTok st
    if token == Lang.CLOSE then
      let st := if peek st == some Lang.END then (next st).2 else st
      return (msg, st)
    else if RULE_test token then do
      let (msg, st) ← parseMessageField fuel msg token st
      parseMessageBody fuel msg st
    else if token == "enum" then do
      let (enm, st) ← parseEnum fuel msg.name st
      parseMessageBody fuel (msg.pushEnum enm) st
    else if token == "message" then do
      let (m2, _, st) ← parseMessage fuel msg.name none token st
      parseMessageBody fuel (msg.pushMessage m2) st
    else if token == "option" then do
      let ((n, v), st) ← parseOption msg.name st
      parseMessageBody fuel (msg.setOption n v) st
    else if token == "extensions" then do
      let (range, st) ← parseExtensions msg.name st
      parseMessageBody fuel (msg.setExtensions range) st
    else if token == "extend" then do
      let (ext, st) ← parseExtend fuel st
      parseMessageBody fuel (msg.pushMessage ext) st
    else
      throw (errL st ("Illegal token in message " ++ msg.name ++ ": " ++ token))

/-- `Parser.prototype._parseMessageField`: the rule keyword, then either a
legacy `group` (desugared into a nested group message plus a field typed
by the group's name and named by its lower-casing; the group name must
start with an uppercase letter — an error thrown without a line number) or
an ordinary typed field with id, optional bracketed options, and
terminator.  Pushes the field (and for a group also the synthesized
message) onto `msg`. -/
def parseMessageField (fuel : Nat) (msg : Message) (token : String)
    (st : TokState) : Except ParseErr (Message × TokState) :=
  match fuel with
  | 0 => .error (fuelErr st)
  | fuel + 1 => do
    let fld : Field := { rule := token }
    let (token, st) ← nextTok st
    if token == "group" then do
      let (grp, fldq, st) ← parseMessage fuel msg.name (some fld) token st
      -- the source pushes the group message onto `parent["messages"]` at
      -- the end of `_parseMessage`; an extend record has no `messages`
      -- array, so JS fails there with a line-less TypeError
      let _ ← guardErr msg.ref.isSome
        ⟨none, "TypeError: Cannot read property push of undefined"⟩
      let fld := fldq.getD fld
      let _ ← guardErr (!startsUpper grp.name)
        ⟨none, "Group names must start with a capital letter"⟩
      let fld := { fld with type := grp.name, name := strToLower grp.name }
      let st := if peek st == some Lang.END then (next st).2 else st
      return ((msg.pushMessage grp).pushField fld, st)
    else do
      let _ ← guardErr (!TYPE_test token && !TYPEREF_test token)
        (errL st ("Illegal field type in message " ++ msg.name ++
          ": " ++ token))
      let fld := { fld with type := token }
      let (token, st) ← nextTok st
      let _ ← guardErr (!NAME_test token)
        (errL st ("Illegal field name in message " ++ msg.name ++
          ": " ++ token))
      let fld := { fld with name := token }
      let (token, st) ← nextTok st
      let _ ← guardErr (token != Lang.EQUAL)
        (errL st ("Illegal field id assignment in message " ++ msg.name ++
          "#" ++ fld.name ++ ": " ++ token))
      let (token, st) ← nextTok st
      let id ←
        (match parseId st token false with
        | .error _ =>
          throw (errL st ("Illegal field id value in message " ++ msg.name ++
            "#" ++ fld.name ++ ": " ++ token))
        | .ok i => pure i)
      let fld := { fld with id := id }
      let (token, st) ← nextTok st
      let (fld, token, st) ←
        (if token == Lang.OPTOPEN then do
          let (opts, st) ← parseFieldOptions fuel msg.name fld.name
            fld.options true st
          let (token, st) ← nextTok st
          pure ({ fld with options := opts }, token, st)
        else
          pure (fld, token, st))
      let _ ← guardErr (token != Lang.END)
        (errL st ("Illegal field delimiter in message " ++ msg.name ++
          "#" ++ fld.name ++ ": " ++ token))
      return (msg.pushField fld, st)

/-- `Parser.prototype._parseExtend`: a type reference naming the extended
message, an open brace, then the body loop.  The result is a message-like
record carrying `ref` and `fields`; the caller pushes it onto its
`messages` list.  Error texts read the record's absent `name` property,
which JS renders as `undefined`. -/
def parseExtend (fuel : Nat) (st : TokState) :
    Except ParseErr (Message × TokState) :=
  match fuel with
  | 0 => .error (fuelErr st)
  | fuel + 1 => do
    let (token, st) ← nextTok st
    let _ ← guardErr (!TYPEREF_test token)
      (errL st ("Illegal extended message name: " ++ token))
    let ext : Message := Message.mk "" [] [] [] [] none false (some token)
    let (token, st) ← nextTok st
    let _ ← guardErr (token != Lang.OPEN)
      (errL st ("Illegal OPEN in extend undefined: " ++ token))
    parseExtendBody fuel ext st

/-- The body loop of `Parser.prototype._parseExtend`: field declarations
until the closing brace (a redundant terminator after it is consumed). -/
def parseExtendBody (fuel : Nat) (ext : Message) (st : TokState) :
    Except ParseErr (Message × TokState) :=
  match fuel with
  | 0 => .error (fuelErr st)
  | fuel + 1 => do
    let (token, st) ← nextTok st
    if token == Lang.CLOSE then
      let st := if peek st == some Lang.END then (next st).2 else st
      return (ext, st)
    else if RULE_test token then do
      let (ext, st) ← parseMessageField fuel ext token st
      parseExtendBody fuel ext st
    else
      throw (errL st ("Illegal token in extend undefined: " ++ token))

end

/-- The option loop of `Parser.prototype._parseServiceRPC`: zero or more
`option` statements until the closing brace.  The source calls
`_parseOption(method, token)` whose error texts read the method record's
absent `name` property, hence the literal `"undefined"`. -/
def parseRPCOptions (fuel : Nat) (svcName mName : String) (method : Method)
    (st : TokState) : Except ParseErr (Method × TokState) :=
  match fuel with
  | 0 => .error (fuelErr st)
  | fuel + 1 => do
    let (token, st) ← nextTok st
    if token == "option" then do
      let ((n, v), st) ← parseOption "undefined" st
      parseRPCOptions fuel svcName mName
        { method with options := setAssoc method.options n v } st
    else if token != Lang.CLOSE then
      throw (errL st ("Illegal start of option in RPC service " ++ svcName ++
        "#" ++ mName ++ ": " ++ token))
    else
      return (method, st)

/-- `Parser.prototype._parseServiceRPC`: method name, parenthesized
request type (validated as a type reference), case-insensitive `returns`,
parenthesized response type (stored verbatim, with no grammar test), then
a terminator or an options block.  Returns the kind keyword, method name
and method record.  At end of input the `returns` comparison calls
`toLowerCase()` on the null token, a line-less TypeError. -/
def parseServiceRPC (fuel : Nat) (svcName : String) (token : String)
    (st : TokState) :
    Except ParseErr ((String × String × Method) × TokState) := do
  let type := token
  let (token, st) ← nextTok st
  let _ ← guardErr (!NAME_test token)
    (errL st ("Illegal RPC method name in service " ++ svcName ++
      ": " ++ token))
  let name := token
  let method : Method := {}
  let (token, st) ← nextTok st
  let _ ← guardErr (token != Lang.COPTOPEN)
    (errL st ("Illegal start of request type in RPC service " ++ svcName ++
      "#" ++ name ++ ": " ++ token))
  let (token, st) ← nextTok st
  let _ ← guardErr (!TYPEREF_test token)
    (errL st ("Illegal request type in RPC service " ++ svcName ++
      "#" ++ name ++ ": " ++ token))
  let method := { method with request := some token }
  let (token, st) ← nextTok st
  let _ ← guardErr (token != Lang.COPTCLOSE)
    (errL st ("Illegal end of request type in RPC service " ++ svcName ++
      "#" ++ name ++ ": " ++ token))
  let (token, st) ← nextTokUnchecked st
    "TypeError: Cannot read property toLowerCase of null"
  let _ ← guardErr (strToLower token != "returns")
    (errL st ("Illegal request/response delimiter in RPC service " ++
      svcName ++ "#" ++ name ++ ": " ++ token))
  let (token, st) ← nextTok st
  let _ ← guardErr (token != Lang.COPTOPEN)
    (errL st ("Illegal start of response type in RPC service " ++ svcName ++
      "#" ++ name ++ ": " ++ token))
  let (token, st) ← nextTok st
  let method := { method with response := some token }
  let (token, st) ← nextTok st
  let _ ← guardErr (token != Lang.COPTCLOSE)
    (errL st ("Illegal end of response type in RPC service " ++ svcName ++
      "#" ++ name ++ ": " ++ token))
  let (token, st) ← nextTok st
  if token == Lang.OPEN then do
    let (method, st) ← parseRPCOptions fuel svcName name method st
    let st := if peek st == some Lang.END then (next st).2 else st
    return ((type, name, method), st)
  else do
    let _ ← guardErr (token != Lang.END)
      (errL st ("Illegal method delimiter in RPC service " ++ svcName ++
        "#" ++ name ++ ": " ++ token))
    return ((type, name, method), st)

/-- The body loop of `Parser.prototype._parseService`: service-level
`option` statements or `rpc` methods until the closing brace. -/
def parseServiceBody (fuel : Nat) (svc : Service) (st : TokState) :
    Except ParseErr (Service × TokState) :=
  match fuel with
  | 0 => .error (fuelErr st)
  | fuel + 1 => do
    let (token, st) ← nextTok st
    if token == "option" then do
      let ((n, v), st) ← parseOption svc.name st
      parseServiceBody fuel { svc with options := setAssoc svc.options n v } st
    else if token == "rpc" then do
      let ((_, mName, method), st) ← parseServiceRPC fuel svc.name token st
      parseServiceBody fuel { svc with rpc := setAssoc svc.rpc mName method } st
    else if token != Lang.CLOSE then
      throw (errL st ("Illegal type for service " ++ svc.name ++ ": " ++ token))
    else
      return (svc, st)

/-- `Parser.prototype._parseService`: name, open brace, then the body
loop. -/
def parseService (fuel : Nat) (st : TokState) :
    Except ParseErr (Service × TokState) := do
  let (token, st) ← nextTok st
  let _ ← guardErr (!NAME_test token)
    (errL st ("Illegal service name: " ++ token))
  let name := token
  let (token, st) ← nextTok st
  let _ ← guardErr (token != Lang.OPEN)
    (errL st ("Illegal OPEN after service " ++ name ++ ": " ++ token))
  parseServiceBody fuel ⟨name, [], []⟩ st

/-- The top-level loop of `Parser.prototype.parse`: while in header mode,
`package` (at most once), `import` and top-level `option` are legal;
parsing a `message` or `enum` declaration closes header mode; `service`,
`extend` and the ignored `syntax` directive are dispatched without
touching the header flag; any other token fails; end of input yields the
accumulated schema. -/
def parseTop (fuel : Nat) (tl : TopLevel) (header : Bool) (st : TokState) :
    Except ParseErr TopLevel :=
  match fuel with
  | 0 => .error (fuelErr st)
  | fuel + 1 =>
    match next st with
    | (none, _) => .ok tl
    | (some token, st) =>
      if token == "package" then
        if !header || tl.package.isSome then
          .error (errL st "Illegal package")
        else do
          let (pkg, st) ← parsePackage st
          parseTop fuel { tl with package := some pkg } header st
      else if token == "import" then
        if !header then
          .error (errL st "Illegal import")
        else do
          let (imp, st) ← parseImport st
          parseTop fuel { tl with imports := tl.imports ++ [imp] } header st
      else if token == "message" then do
        let (msg, _, st) ← parseMessage fuel "[ROOT]" none token st
        parseTop fuel { tl with messages := tl.messages ++ [msg] } false st
      else if token == "enum" then do
        let (enm, st) ← parseEnum fuel "[ROOT]" st
        parseTop fuel { tl with enums := tl.enums ++ [enm] } false st
      else if token == "option" then
        if !header then
          .error (errL st "Illegal option")
        else do
          let ((n, v), st) ← parseOption "[ROOT]" st
          parseTop fuel { tl with options := setAssoc tl.options n v } header st
      else if token == "service" then do
        let (svc, st) ← parseService fuel st
        parseTop fuel { tl with services := tl.services ++ [svc] } header st
      else if token == "extend" then do
        let (ext, st) ← parseExtend fuel st
        parseTop fuel { tl with messages := tl.messages ++ [ext] } header st
      else if token == "syntax" then do
        let st ← parseIgnoredStatement fuel "[ROOT]" token st
        parseTop fuel tl header st
      else
        .error (errL st ("Illegal token: " ++ token))

/-- `Parser.prototype.parse`: run the top-level loop on a fresh schema in
header mode. -/
def parse (fuel : Nat) (st : TokState) : Except ParseErr TopLevel :=
  parseTop fuel {} true st

/-- The error shape produced by the parser: every error cites a line,
except the group-capitalization error (thrown without one) and the three
TypeErrors raised where the source dereferences `null`/`undefined`: the
`returns` comparison and the extensions range bounds at end of input, and
the push of a group message onto an extend record's absent `messages`
array. -/
def errOk (e : ParseErr) : Prop :=
  (∃ l, e.line = some l) ∨
    e.msg = "Group names must start with a capital letter" ∨
    e.msg = "TypeError: Cannot read property toLowerCase of null" ∨
    e.msg = "TypeError: Cannot read property charAt of null" ∨
    e.msg = "TypeError: Cannot read property push of undefined"

/-- All errors a parsing computation can produce satisfy `errOk`. -/
def EOk {α : Type} (r : Except ParseErr α) : Prop :=
  ∀ e, r = .error e → errOk e

/-! ## Theorems -/

theorem errOk_errL (st : TokState) (m : String) : errOk (errL st m) :=
  Or.inl ⟨st.line, rfl⟩

theorem EOk_error {α : Type} {e : ParseErr} (h : errOk e) :
    EOk (Except.error e : Except ParseErr α) := by
  intro e2 h2
  injection h2 with h3
  exact h3 ▸ h

theorem EOk_ok {α : Type} (a : α) : EOk (Except.ok a : Except ParseErr α) := by
  intro e h
  exact Except.noConfusion h

theorem EOk_throw {α : Type} {e : ParseErr} (h : errOk e) :
    EOk (throw e : Except ParseErr α) := EOk_error h

theorem EOk_pure {α : Type} (a : α) : EOk (pure a : Except ParseErr α) := EOk_ok a

theorem EOk_bind {α β : Type} {ma : Except ParseErr α}
    {f : α → Except ParseErr β} (h1 : EOk ma) (h2 : ∀ a, EOk (f a)) :
    EOk (ma >>= f) := by
  intro e h
  cases ma with
  | error e2 =>
    have hb : (Except.error e2 >>= f : Except ParseErr β) = .error e2 := rfl
    rw [hb] at h
    injection h with h3
    exact h3 ▸ h1 e2 rfl
  | ok a =>
    have hb : (Except.ok a >>= f : Except ParseErr β) = f a := rfl
    rw [hb] at h
    exact h2 a e h

theorem nextTok_EOk (st : TokState) : EOk (nextTok st) := by
  unfold nextTok
  split
  · exact EOk_error (Or.inl ⟨_, rfl⟩)
  · exact EOk_ok _

theorem nextTokUnchecked_EOk (st : TokState) (tyErr : String)
    (h : errOk ⟨none, tyErr⟩) : EOk (nextTokUnchecked st tyErr) := by
  unfold nextTokUnchecked
  split
  · exact EOk_error h
  · exact EOk_ok _

theorem parseNumber_EOk (st : TokState) (v : String) : EOk (parseNumber st v) := by
  unfold parseNumber
  dsimp only []
  repeat' split
  all_goals first
    | exact EOk_ok _
    | exact EOk_error (errOk_errL _ _)

theorem parseId_EOk (st : TokState) (v : String) (neg : Bool) :
    EOk (parseId st v neg) := by
  unfold parseId
  dsimp only []
  repeat' split
  all_goals first
    | exact EOk_ok _
    | exact EOk_error (errOk_errL _ _)

theorem guardErr_EOk {e : ParseErr} (h : errOk e) (c : Bool) :
    EOk (guardErr c e) := by
  unfold guardErr
  split
  · exact EOk_error h
  · exact EOk_ok _

theorem parsePackage_EOk (st : TokState) : EOk (parsePackage st) := by
  unfold parsePackage
  refine EOk_bind (nextTok_EOk st) ?_
  rintro ⟨token, st1⟩
  dsimp only []
  refine EOk_bind (guardErr_EOk (errOk_errL _ _) _) ?_
  intro u1
  refine EOk_bind (nextTok_EOk _) ?_
  rintro ⟨t2, st2⟩
  dsimp only []
  refine EOk_bind (guardErr_EOk (errOk_errL _ _) _) ?_
  intro u2
  exact EOk_pure _

theorem parseImport_EOk (st : TokState) : EOk (parseImport st) := by
  unfold parseImport
  refine EOk_bind (nextTok_EOk st) ?_
  rintro ⟨token, st1⟩
  dsimp only []
  refine EOk_bind ?_ ?_
  · split
    · exact nextTok_EOk _
    · exact EOk_pure _
  · rintro ⟨t2, st2⟩
    dsimp only []
    refine EOk_bind (guardErr_EOk (errOk_errL _ _) _) ?_
    intro u1
    refine EOk_bind (nextTok_EOk _) ?_
    rintro ⟨imp, st3⟩
    dsimp only []
    refine EOk_bind (nextTok_EOk _) ?_
    rintro ⟨t4, st4⟩
    dsimp only []
    refine EOk_bind (guardErr_EOk (errOk_errL _ _) _) ?_
    intro u2
    refine EOk_bind (nextTok_EOk _) ?_
    rintro ⟨t5, st5⟩
    dsimp only []
    refine EOk_bind (guardErr_EOk (errOk_errL _ _) _) ?_
    intro u3
    exact EOk_pure _

theorem parseOption_EOk (parentName : String) (st : TokState) :
    EOk (parseOption parentName st) := by
  unfold parseOption
  refine EOk_bind (nextTok_EOk st) ?_
  rintro ⟨token, st1⟩
  dsimp only []
  refine EOk_bind ?_ ?_
  · split
    · exact nextTok_EOk _
    · exact EOk_pure _
  · rintro ⟨t2, st2⟩
    dsimp only []
    refine EOk_bind (guardErr_EOk (errOk_errL _ _) _) ?_
    intro u1
    refine EOk_bind (nextTok_EOk _) ?_
    rintro ⟨t3, st3⟩
    dsimp only []
    refine EOk_bind ?_ ?_
    · split
      · refine EOk_bind (guardErr_EOk (errOk_errL _ _) _) ?_
        intro u2
        refine EOk_bind (nextTok_EOk _) ?_
        rintro ⟨t4, st4⟩
        dsimp only []
        split
        · refine EOk_bind (nextTok_EOk _) ?_
          rintro ⟨t5, st5⟩
          dsimp only []
          exact EOk_pure _
        · exact EOk_pure _
      · exact EOk_pure _
    · rintro ⟨name, t6, st6⟩
      dsimp only []
      refine EOk_bind (guardErr_EOk (errOk_errL _ _) _) ?_
      intro u3
      refine EOk_bind (nextTok_EOk _) ?_
      rintro ⟨t7, st7⟩
      dsimp only []
      split
      · refine EOk_bind (nextTok_EOk _) ?_
        rintro ⟨v1, st8⟩
        dsimp only []
        refine EOk_bind (nextTok_EOk _) ?_
        rintro ⟨t9, st9⟩
        dsimp only []
        refine EOk_bind (guardErr_EOk (errOk_errL _ _) _) ?_
        intro u4
        refine EOk_bind (nextTok_EOk _) ?_
        rintro ⟨t10, st10⟩
        dsimp only []
        refine EOk_bind (guardErr_EOk (errOk_errL _ _) _) ?_
        intro u5
        exact EOk_pure _
      · refine EOk_bind ?_ ?_
        · split
          · refine EOk_bind (parseNumber_EOk _ _) ?_
            intro q
            exact EOk_pure _
          · split
            · exact EOk_pure _
            · split
              · exact EOk_pure _
              · exact EOk_throw (errOk_errL _ _)
        · intro v2
          refine EOk_bind (nextTok_EOk _) ?_
          rintro ⟨t11, st11⟩
          dsimp only []
          refine EOk_bind (guardErr_EOk (errOk_errL _ _) _) ?_
          intro u6
          exact EOk_pure _

theorem parseIgnoredStatement_EOk (fuel : Nat) (pn kw : String) (st : TokState) :
    EOk (parseIgnoredStatement fuel pn kw st) := by
  induction fuel generalizing st with
  | zero =>
    unfold parseIgnoredStatement
    exact EOk_error (errOk_errL _ _)
  | succ n ih =>
    unfold parseIgnoredStatement
    split
    · exact EOk_error (errOk_errL _ _)
    · split
      · exact EOk_ok _
      · exact ih _

theorem parseFieldOption_EOk (msgName fldName token : String) (st : TokState) :
    EOk (parseFieldOption msgName fldName token st) := by
  unfold parseFieldOption
  dsimp only []
  refine EOk_bind ?_ ?_
  · split
    · exact nextTok_EOk _
    · exact EOk_pure _
  · rintro ⟨t1, s1⟩
    dsimp only []
    refine EOk_bind (guardErr_EOk (errOk_errL _ _) _) ?_
    intro u1
    refine EOk_bind (nextTok_EOk _) ?_
    rintro ⟨t2, s2⟩
    dsimp only []
    refine EOk_bind ?_ ?_
    · split
      · refine EOk_bind (guardErr_EOk (errOk_errL _ _) _) ?_
        intro u2
        refine EOk_bind (nextTok_EOk _) ?_
        rintro ⟨t3, s3⟩
        dsimp only []
        split
        · refine EOk_bind (nextTok_EOk _) ?_
          rintro ⟨t4, s4⟩
          dsimp only []
          exact EOk_pure _
        · exact EOk_pure _
      · exact EOk_pure _
    · rintro ⟨name, t5, s5⟩
      dsimp only []
      refine EOk_bind (guardErr_EOk (errOk_errL _ _) _) ?_
      intro u3
      refine EOk_bind (nextTok_EOk _) ?_
      rintro ⟨t6, s6⟩
      dsimp only []
      split
      · refine EOk_bind (nextTok_EOk _) ?_
        rintro ⟨v1, s7⟩
        dsimp only []
        refine EOk_bind (nextTok_EOk _) ?_
        rintro ⟨t8, s8⟩
        dsimp only []
        refine EOk_bind (guardErr_EOk (errOk_errL _ _) _) ?_
        intro u4
        exact EOk_pure _
      · split
        · refine EOk_bind (parseNumber_EOk _ _) ?_
          intro q
          exact EOk_pure _
        · split
          · exact EOk_pure _
          · split
            · exact EOk_pure _
            · exact EOk_throw (errOk_errL _ _)

theorem parseFieldOptions_EOk (fuel : Nat) (msgName fldName : String)
    (opts : List (String × Value)) (first : Bool) (st : TokState) :
    EOk (parseFieldOptions fuel msgName fldName opts first st) := by
  induction fuel generalizing opts first st with
  | zero =>
    unfold parseFieldOptions
    exact EOk_error (errOk_errL _ _)
  | succ n ih =>
    unfold parseFieldOptions
    refine EOk_bind (nextTok_EOk _) ?_
    rintro ⟨t1, s1⟩
    dsimp only []
    split
    · exact EOk_pure _
    · refine EOk_bind ?_ ?_
      · split
        · refine EOk_bind (guardErr_EOk (errOk_errL _ _) _) ?_
          intro u1
          exact nextTok_EOk _
        · exact EOk_pure _
      · rintro ⟨t2, s2⟩
        dsimp only []
        refine EOk_bind (parseFieldOption_EOk _ _ _ _) ?_
        rintro ⟨⟨n2, v2⟩, s3⟩
        dsimp only []
        exact ih _ _ _

theorem parseEnumValue_EOk (fuel : Nat) (enmName token : String) (st : TokState) :
    EOk (parseEnumValue fuel enmName token st) := by
  unfold parseEnumValue
  dsimp only []
  refine EOk_bind (nextTok_EOk _) ?_
  rintro ⟨t1, s1⟩
  dsimp only []
  refine EOk_bind (guardErr_EOk (errOk_errL _ _) _) ?_
  intro u1
  refine EOk_bind (nextTok_EOk _) ?_
  rintro ⟨t2, s2⟩
  dsimp only []
  refine EOk_bind ?_ ?_
  · split
    · exact EOk_throw (errOk_errL _ _)
    · exact EOk_pure _
  · intro i
    dsimp only []
    refine EOk_bind (nextTok_EOk _) ?_
    rintro ⟨t3, s3⟩
    dsimp only []
    refine EOk_bind ?_ ?_
    · split
      · refine EOk_bind (parseFieldOptions_EOk _ _ _ _ _ _) ?_
        rintro ⟨o4, s4⟩
        dsimp only []
        exact nextTok_EOk _
      · exact EOk_pure _
    · rintro ⟨t5, s5⟩
      dsimp only []
      refine EOk_bind (guardErr_EOk (errOk_errL _ _) _) ?_
      intro u2
      exact EOk_pure _

theorem parseEnumBody_EOk (fuel : Nat) (enm : Enum) (st : TokState) :
    EOk (parseEnumBody fuel enm st) := by
  induction fuel generalizing enm st with
  | zero =>
    unfold parseEnumBody
    exact EOk_error (errOk_errL _ _)
  | succ n ih =>
    unfold parseEnumBody
    refine EOk_bind (nextTok_EOk _) ?_
    rintro ⟨t1, s1⟩
    dsimp only []
    split
    · exact EOk_pure _
    · split
      · refine EOk_bind (parseOption_EOk _ _) ?_
        rintro ⟨⟨n2, v2⟩, s2⟩
        dsimp only []
        exact ih _ _
      · refine EOk_bind (guardErr_EOk (errOk_errL _ _) _) ?_
        intro u1
        refine EOk_bind (parseEnumValue_EOk _ _ _ _) ?_
        rintro ⟨val, s3⟩
        dsimp only []
        exact ih _ _

theorem parseEnum_EOk (fuel : Nat) (parentName : String) (st : TokState) :
    EOk (parseEnum fuel parentName st) := by
  unfold parseEnum
  refine EOk_bind (nextTok_EOk _) ?_
  rintro ⟨t1, s1⟩
  dsimp only []
  refine EOk_bind (guardErr_EOk (errOk_errL _ _) _) ?_
  intro u1
  refine EOk_bind (nextTok_EOk _) ?_
  rintro ⟨t2, s2⟩
  dsimp only []
  refine EOk_bind (guardErr_EOk (errOk_errL _ _) _) ?_
  intro u2
  exact parseEnumBody_EOk _ _ _

theorem parseExtensions_EOk (msgName : String) (st : TokState) :
    EOk (parseExtensions msgName st) := by
  unfold parseExtensions
  refine EOk_bind (nextTokUnchecked_EOk _ _ (Or.inr (Or.inr (Or.inr (Or.inl rfl))))) ?_
  rintro ⟨t1, s1⟩
  dsimp only []
  refine EOk_bind ?_ ?_
  · split
    · exact EOk_pure _
    · split
      · exact EOk_pure _
      · exact parseNumber_EOk _ _
  · intro lo
    dsimp only []
    refine EOk_bind (nextTok_EOk _) ?_
    rintro ⟨t2, s2⟩
    dsimp only []
    refine EOk_bind (guardErr_EOk (errOk_errL _ _) _) ?_
    intro u1
    refine EOk_bind (nextTokUnchecked_EOk _ _ (Or.inr (Or.inr (Or.inr (Or.inl rfl))))) ?_
    rintro ⟨t3, s3⟩
    dsimp only []
    refine EOk_bind ?_ ?_
    · split
      · exact EOk_pure _
      · split
        · exact EOk_pure _
        · exact parseNumber_EOk _ _
    · intro hi
      dsimp only []
      refine EOk_bind (nextTok_EOk _) ?_
      rintro ⟨t4, s4⟩
      dsimp only []
      refine EOk_bind (guardErr_EOk (errOk_errL _ _) _) ?_
      intro u2
      exact EOk_pure _

theorem messageCluster_EOk (fuel : Nat) :
    (∀ pn fld tok st, EOk (parseMessage fuel pn fld tok st)) ∧
    (∀ msg st, EOk (parseMessageBody fuel msg st)) ∧
    (∀ msg tok st, EOk (parseMessageField fuel msg tok st)) ∧
    (∀ st, EOk (parseExtend fuel st)) ∧
    (∀ ext st, EOk (parseExtendBody fuel ext st)) := by
  induction fuel with
  | zero =>
    refine ⟨fun pn fld tok st => ?_, fun msg st => ?_, fun msg tok st => ?_,
      fun st => ?_, fun ext st => ?_⟩
    · unfold parseMessage
      exact EOk_error (errOk_errL _ _)
    · unfold parseMessageBody
      exact EOk_error (errOk_errL _ _)
    · unfold parseMessageField
      exact EOk_error (errOk_errL _ _)
    · unfold parseExtend
      exact EOk_error (errOk_errL _ _)
    · unfold parseExtendBody
      exact EOk_error (errOk_errL _ _)
  | succ n ih =>
    obtain ⟨ihM, ihB, ihF, ihE, ihEB⟩ := ih
    refine ⟨fun pn fld tok st => ?_, fun msg st => ?_, fun msg tok st => ?_,
      fun st => ?_, fun ext st => ?_⟩
    · unfold parseMessage
      dsimp only []
      refine EOk_bind (nextTok_EOk _) ?_
      rintro ⟨t1, s1⟩
      dsimp only []
      refine EOk_bind (guardErr_EOk (errOk_errL _ _) _) ?_
      intro u1
      refine EOk_bind ?_ ?_
      · split
        · refine EOk_bind (nextTok_EOk _) ?_
          rintro ⟨t2, s2⟩
          dsimp only []
          refine EOk_bind (guardErr_EOk (errOk_errL _ _) _) ?_
          intro u2
          refine EOk_bind (nextTok_EOk _) ?_
          rintro ⟨t3, s3⟩
          dsimp only []
          refine EOk_bind ?_ ?_
          · split
            · exact EOk_throw (errOk_errL _ _)
            · exact EOk_pure _
          · intro i
            dsimp only []
            exact EOk_pure _
        · exact EOk_pure _
      · rintro ⟨fld2, s4⟩
        dsimp only []
        refine EOk_bind (nextTok_EOk _) ?_
        rintro ⟨t5, s5⟩
        dsimp only []
        refine EOk_bind ?_ ?_
        · split
          · refine EOk_bind (parseFieldOptions_EOk _ _ _ _ _ _) ?_
            rintro ⟨opts, s6⟩
            dsimp only []
            refine EOk_bind (nextTok_EOk _) ?_
            rintro ⟨t7, s7⟩
            dsimp only []
            exact EOk_pure _
          · exact EOk_pure _
        · rintro ⟨f8, t8, s8⟩
          dsimp only []
          refine EOk_bind (guardErr_EOk (errOk_errL _ _) _) ?_
          intro u3
          refine EOk_bind (ihB _ _) ?_
          rintro ⟨m9, s9⟩
          dsimp only []
          exact EOk_pure _
    · unfold parseMessageBody
      refine EOk_bind (nextTok_EOk _) ?_
      rintro ⟨t1, s1⟩
      dsimp only []
      split
      · exact EOk_pure _
      · split
        · refine EOk_bind (ihF _ _ _) ?_
          rintro ⟨m2, s2⟩
          dsimp only []
          exact ihB _ _
        · split
          · refine EOk_bind (parseEnum_EOk _ _ _) ?_
            rintro ⟨e2, s2⟩
            dsimp only []
            exact ihB _ _
          · split
            · refine EOk_bind (ihM _ _ _ _) ?_
              rintro ⟨m2, f2, s2⟩
              dsimp only []
              exact ihB _ _
            · split
              · refine EOk_bind (parseOption_EOk _ _) ?_
                rintro ⟨⟨n2, v2⟩, s2⟩
                dsimp only []
                exact ihB _ _
              · split
                · refine EOk_bind (parseExtensions_EOk _ _) ?_
                  rintro ⟨r2, s2⟩
                  dsimp only []
                  exact ihB _ _
                · split
                  · refine EOk_bind (ihE _) ?_
                    rintro ⟨x2, s2⟩
                    dsimp only []
                    exact ihB _ _
                  · exact EOk_throw (errOk_errL _ _)
    · unfold parseMessageField
      dsimp only []
      refine EOk_bind (nextTok_EOk _) ?_
      rintro ⟨t1, s1⟩
      dsimp only []
      split
      · refine EOk_bind (ihM _ _ _ _) ?_
        rintro ⟨grp, fq, s2⟩
        dsimp only []
        refine EOk_bind (guardErr_EOk (Or.inr (Or.inr (Or.inr (Or.inr rfl)))) _) ?_
        intro u0
        refine EOk_bind (guardErr_EOk (Or.inr (Or.inl rfl)) _) ?_
        intro u1
        exact EOk_pure _
      · refine EOk_bind (guardErr_EOk (errOk_errL _ _) _) ?_
        intro u2
        refine EOk_bind (nextTok_EOk _) ?_
        rintro ⟨t2, s2⟩
        dsimp only []
        refine EOk_bind (guardErr_EOk (errOk_errL _ _) _) ?_
        intro u3
        refine EOk_bind (nextTok_EOk _) ?_
        rintro ⟨t3, s3⟩
        dsimp only []
        refine EOk_bind (guardErr_EOk (errOk_errL _ _) _) ?_
        intro u4
        refine EOk_bind (nextTok_EOk _) ?_
        rintro ⟨t4, s4⟩
        dsimp only []
        refine EOk_bind ?_ ?_
        · split
          · exact EOk_throw (errOk_errL _ _)
          · exact EOk_pure _
        · intro i
          dsimp only []
          refine EOk_bind (nextTok_EOk _) ?_
          rintro ⟨t5, s5⟩
          dsimp only []
          refine EOk_bind ?_ ?_
          · split
            · refine EOk_bind (parseFieldOptions_EOk _ _ _ _ _ _) ?_
              rintro ⟨o6, s6⟩
              dsimp only []
              refine EOk_bind (nextTok_EOk _) ?_
              rintro ⟨t7, s7⟩
              dsimp only []
              exact EOk_pure _
            · exact EOk_pure _
          · rintro ⟨f8, t8, s8⟩
            dsimp only []
            refine EOk_bind (guardErr_EOk (errOk_errL _ _) _) ?_
            intro u5
            exact EOk_pure _
    · unfold parseExtend
      refine EOk_bind (nextTok_EOk _) ?_
      rintro ⟨t1, s1⟩
      dsimp only []
      refine EOk_bind (guardErr_EOk (errOk_errL _ _) _) ?_
      intro u1
      refine EOk_bind (nextTok_EOk _) ?_
      rintro ⟨t2, s2⟩
      dsimp only []
      refine EOk_bind (guardErr_EOk (errOk_errL _ _) _) ?_
      intro u2
      exact ihEB _ _
    · unfold parseExtendBody
      refine EOk_bind (nextTok_EOk _) ?_
      rintro ⟨t1, s1⟩
      dsimp only []
      split
      · exact EOk_pure _
      · split
        · refine EOk_bind (ihF _ _ _) ?_
          rintro ⟨x2, s2⟩
          dsimp only []
          exact ihEB _ _
        · exact EOk_throw (errOk_errL _ _)

theorem parseRPCOptions_EOk (fuel : Nat) (svcName mName : String)
    (method : Method) (st : TokState) :
    EOk (parseRPCOptions fuel svcName mName method st) := by
  induction fuel generalizing method st with
  | zero =>
    unfold parseRPCOptions
    exact EOk_error (errOk_errL _ _)
  | succ n ih =>
    unfold parseRPCOptions
    refine EOk_bind (nextTok_EOk _) ?_
    rintro ⟨t1, s1⟩
    dsimp only []
    split
    · refine EOk_bind (parseOption_EOk _ _) ?_
      rintro ⟨⟨n2, v2⟩, s2⟩
      dsimp only []
      exact ih _ _
    · split
      · exact EOk_throw (errOk_errL _ _)
      · exact EOk_pure _

theorem parseServiceRPC_EOk (fuel : Nat) (svcName token : String)
    (st : TokState) : EOk (parseServiceRPC fuel svcName token st) := by
  unfold parseServiceRPC
  dsimp only []
  refine EOk_bind (nextTok_EOk _) ?_
  rintro ⟨t1, s1⟩
  dsimp only []
  refine EOk_bind (guardErr_EOk (errOk_errL _ _) _) ?_
  intro u1
  refine EOk_bind (nextTok_EOk _) ?_
  rintro ⟨t2, s2⟩
  dsimp only []
  refine EOk_bind (guardErr_EOk (errOk_errL _ _) _) ?_
  intro u2
  refine EOk_bind (nextTok_EOk _) ?_
  rintro ⟨t3, s3⟩
  dsimp only []
  refine EOk_bind (guardErr_EOk (errOk_errL _ _) _) ?_
  intro u3
  refine EOk_bind (nextTok_EOk _) ?_
  rintro ⟨t4, s4⟩
  dsimp only []
  refine EOk_bind (guardErr_EOk (errOk_errL _ _) _) ?_
  intro u4
  refine EOk_bind (nextTokUnchecked_EOk _ _ (Or.inr (Or.inr (Or.inl rfl)))) ?_
  rintro ⟨t5, s5⟩
  dsimp only []
  refine EOk_bind (guardErr_EOk (errOk_errL _ _) _) ?_
  intro u5
  refine EOk_bind (nextTok_EOk _) ?_
  rintro ⟨t6, s6⟩
  dsimp only []
  refine EOk_bind (guardErr_EOk (errOk_errL _ _) _) ?_
  intro u6
  refine EOk_bind (nextTok_EOk _) ?_
  rintro ⟨t7, s7⟩
  dsimp only []
  refine EOk_bind (nextTok_EOk _) ?_
  rintro ⟨t8, s8⟩
  dsimp only []
  refine EOk_bind (guardErr_EOk (errOk_errL _ _) _) ?_
  intro u7
  refine EOk_bind (nextTok_EOk _) ?_
  rintro ⟨t9, s9⟩
  dsimp only []
  split
  · refine EOk_bind (parseRPCOptions_EOk _ _ _ _ _) ?_
    rintro ⟨m10, s10⟩
    dsimp only []
    exact EOk_pure _
  · refine EOk_bind (guardErr_EOk (errOk_errL _ _) _) ?_
    intro u8
    exact EOk_pure _

theorem parseServiceBody_EOk (fuel : Nat) (svc : Service) (st : TokState) :
    EOk (parseServiceBody fuel svc st) := by
  induction fuel generalizing svc st with
  | zero =>
    unfold parseServiceBody
    exact EOk_error (errOk_errL _ _)
  | succ n ih =>
    unfold parseServiceBody
    refine EOk_bind (nextTok_EOk _) ?_
    rintro ⟨t1, s1⟩
    dsimp only []
    split
    · refine EOk_bind (parseOption_EOk _ _) ?_
      rintro ⟨⟨n2, v2⟩, s2⟩
      dsimp only []
      exact ih _ _
    · split
      · refine EOk_bind (parseServiceRPC_EOk _ _ _ _) ?_
        rintro ⟨⟨ty, mName, method⟩, s3⟩
        dsimp only []
        exact ih _ _
      · split
        · exact EOk_throw (errOk_errL _ _)
        · exact EOk_pure _

theorem parseService_EOk (fuel : Nat) (st : TokState) :
    EOk (parseService fuel st) := by
  unfold parseService
  refine EOk_bind (nextTok_EOk _) ?_
  rintro ⟨t1, s1⟩
  dsimp only []
  refine EOk_bind (guardErr_EOk (errOk_errL _ _) _) ?_
  intro u1
  refine EOk_bind (nextTok_EOk _) ?_
  rintro ⟨t2, s2⟩
  dsimp only []
  refine EOk_bind (guardErr_EOk (errOk_errL _ _) _) ?_
  intro u2
  exact parseServiceBody_EOk _ _ _

theorem parseTop_EOk (fuel : Nat) (tl : TopLevel) (header : Bool)
    (st : TokState) : EOk (parseTop fuel tl header st) := by
  induction fuel generalizing tl header st with
  | zero =>
    unfold parseTop
    exact EOk_error (errOk_errL _ _)
  | succ n ih =>
    unfold parseTop
    split
    · exact EOk_ok _
    · split
      · split
        · exact EOk_error (errOk_errL _ _)
        · refine EOk_bind (parsePackage_EOk _) ?_
          rintro ⟨pkg, s2⟩
          dsimp only []
          exact ih _ _ _
      · split
        · split
          · exact EOk_error (errOk_errL _ _)
          · refine EOk_bind (parseImport_EOk _) ?_
            rintro ⟨imp, s2⟩
            dsimp only []
            exact ih _ _ _
        · split
          · refine EOk_bind ((messageCluster_EOk n).1 _ _ _ _) ?_
            rintro ⟨m2, f2, s2⟩
            dsimp only []
            exact ih _ _ _
          · split
            · refine EOk_bind (parseEnum_EOk _ _ _) ?_
              rintro ⟨e2, s2⟩
              dsimp only []
              exact ih _ _ _
            · split
              · split
                · exact EOk_error (errOk_errL _ _)
                · refine EOk_bind (parseOption_EOk _ _) ?_
                  rintro ⟨⟨n2, v2⟩, s2⟩
                  dsimp only []
                  exact ih _ _ _
              · split
                · refine EOk_bind (parseService_EOk _ _) ?_
                  rintro ⟨svc, s2⟩
                  dsimp only []
                  exact ih _ _ _
                · split
                  · refine EOk_bind ((messageCluster_EOk n).2.2.2.1 _) ?_
                    rintro ⟨x2, s2⟩
                    dsimp only []
                    exact ih _ _ _
                  · split
                    · refine EOk_bind (parseIgnoredStatement_EOk _ _ _ _) ?_
                      intro s2
                      exact ih _ _ _
                    · exact EOk_error (errOk_errL _ _)

theorem parseId_ok_range (st : TokState) (v : String) (i : Int)
    (h : parseId st v false = .ok i) : 0 ≤ i ∧ i < 2147483648 := by
  unfold parseId at h
  dsimp only [] at h
  repeat' split at h
  any_goals simp at h
  all_goals
    rename_i hguard
    subst h
    simp at hguard
    unfold toInt32 at hguard ⊢
    omega

/-- C2: ID parsing (shared by field ids, group ids, and enum value ids)
coerces the parsed value into 32-bit signed range by truncation rather
than rejection, then rejects a negative result for ordinary and group
fields, while enum value ids may be negative. -/
theorem claim2_id_truncation :
    (∀ (st : TokState) (v : String) (i : Int),
        parseId st v false = .ok i → 0 ≤ i ∧ i < 2147483648) ∧
    parseId (mkToks []) "4294967298" false = .ok 2 ∧
    parseId (mkToks []) "2147483648" false =
      .error ⟨some 1, "Illegal ID: 2147483648"⟩ ∧
    parseId (mkToks []) "2147483648" true = .ok (-2147483648) ∧
    parseId (mkToks []) "-1" false = .error ⟨some 1, "Illegal ID: -1"⟩ ∧
    parseId (mkToks []) "-1" true = .ok (-1) ∧
    parse 50 (mkToks ["message", "M", Lang.OPEN, "optional", "int32", "f",
        "=", "-1", ";", Lang.CLOSE]) =
      .error ⟨some 1, "Illegal field id value in message M#f: -1"⟩ ∧
    parse 50 (mkToks ["message", "M", Lang.OPEN, "optional", "group", "G",
        "=", "-1", Lang.OPEN, Lang.CLOSE, Lang.CLOSE]) =
      .error ⟨some 1, "Illegal field id value for group G#undefined: -1"⟩ ∧
    parse 50 (mkToks ["enum", "E", Lang.OPEN, "A", "=", "-1", ";", Lang.CLOSE]) =
      .ok { enums := [⟨"E", [⟨"A", -1⟩], []⟩] } :=
  ⟨parseId_ok_range, rfl, rfl, rfl, rfl, rfl, rfl, rfl, rfl⟩

/-- C2 witness: the range fact instantiated at the overflowing id token
`4294967298`, which truncates to `2`. -/
theorem claim2_id_truncation_witness : (0 : Int) ≤ 2 ∧ (2 : Int) < 2147483648 :=
  claim2_id_truncation.1 (mkToks []) "4294967298" 2 rfl

/-- C3: numeric literal parsing strips an optional `-`, tests decimal,
hex, octal, then (for general numbers only) float patterns in order, uses
the first match, and reapplies the sign; `10` ↦ 10, `0x1A` ↦ 26,
`017` ↦ 15, enum value id `-5` ↦ -5, option value `3.14` ↦ the float
3.14. -/
theorem claim3_number_forms :
    parseNumber (mkToks []) "10" = .ok 10 ∧
    parseNumber (mkToks []) "0x1A" = .ok 26 ∧
    parseNumber (mkToks []) "017" = .ok 15 ∧
    parseNumber (mkToks []) "3.14" = .ok (mkRat 157 50) ∧
    parseId (mkToks []) "10" false = .ok 10 ∧
    parseId (mkToks []) "0x1A" false = .ok 26 ∧
    parseId (mkToks []) "017" false = .ok 15 ∧
    parseId (mkToks []) "-5" true = .ok (-5) ∧
    parseOption "[ROOT]" (mkToks ["foo", "=", "3.14", ";"]) =
      .ok (("foo", Value.num (mkRat 157 50)), ⟨[], 1, ""⟩) ∧
    parse 50 (mkToks ["enum", "E", Lang.OPEN, "A", "=", "-5", ";", Lang.CLOSE]) =
      .ok { enums := [⟨"E", [⟨"A", -5⟩], []⟩] } ∧
    parse 50 (mkToks ["message", "M", Lang.OPEN, "optional", "int32", "x",
        "=", "-1", ";", Lang.CLOSE]) =
      .error ⟨some 1, "Illegal field id value in message M#x: -1"⟩ :=
  ⟨rfl, rfl, rfl, rfl, rfl, rfl, rfl, rfl, rfl, rfl, rfl⟩

/-- C4: `optional group Result = 1 { optional int32 x = 1; }` inside a
message produces a nested message `Result` with `isGroup` true and a field
with type `"Result"`, name `"result"`, id 1 on the enclosing message; a
group whose name does not start with an uppercase letter is rejected. -/
theorem claim4_group_desugaring :
    parse 50 (mkToks ["message", "M", Lang.OPEN, "optional", "group",
        "Result", "=", "1", Lang.OPEN, "optional", "int32", "x", "=", "1",
        ";", Lang.CLOSE, Lang.CLOSE]) =
      .ok { messages := [Message.mk "M"
              [{ rule := "optional", type := "Result", name := "result",
                 id := 1, options := [] }]
              []
              [Message.mk "Result"
                [{ rule := "optional", type := "int32", name := "x",
                   id := 1, options := [] }]
                [] [] [] none true none]
              [] none false none] } ∧
    parse 50 (mkToks ["message", "M", Lang.OPEN, "optional", "group",
        "result", "=", "1", Lang.OPEN, Lang.CLOSE, Lang.CLOSE]) =
      .error ⟨none, "Group names must start with a capital letter"⟩ :=
  ⟨rfl, rfl⟩

/-- C5: custom (parenthesized) option keys keep the parentheses literally
plus any dotted continuation, both for `option` statements and for
bracketed field options. -/
theorem claim5_custom_option_keys :
    parse 50 (mkToks ["option", "(", "foo.bar", ")", "=", "\"", "v", "\"",
        ";"]) =
      .ok { options := [("(foo.bar)", Value.str "v")] } ∧
    parse 50 (mkToks ["option", "(", "foo.bar", ")", ".baz", "=", "1", ";"]) =
      .ok { options := [("(foo.bar).baz", Value.num 1)] } ∧
    parseFieldOption "M" "f" "(" (mkToks ["foo.bar", ")", ".baz", "=", "1"]) =
      .ok (("(foo.bar).baz", Value.num 1), ⟨[], 1, ""⟩) ∧
    parse 50 (mkToks ["message", "M", Lang.OPEN, "optional", "int32", "f",
        "=", "1", "[", "(", "foo.bar", ")", ".baz", "=", "1", "]", ";",
        Lang.CLOSE]) =
      .ok { messages := [Message.mk "M"
              [{ rule := "optional", type := "int32", name := "f", id := 1,
                 options := [("(foo.bar).baz", Value.num 1)] }]
              [] [] [] none false none] } :=
  ⟨rfl, rfl, rfl, rfl⟩

/-- C7 counterexample: the claim requires adjacent bracketed field options
to be separated by the continuation token, but `[ a = 1 b = 2 ]` with no
separator parses successfully with both options recorded. -/
theorem claim7_counterexample :
    parse 50 (mkToks ["message", "M", Lang.OPEN, "optional", "int32", "f",
        "=", "1", "[", "a", "=", "1", "b", "=", "2", "]", ";", Lang.CLOSE]) =
      .ok { messages := [Message.mk "M"
              [{ rule := "optional", type := "int32", name := "f", id := 1,
                 options := [("a", Value.num 1), ("b", Value.num 2)] }]
              [] [] [] none false none] } := rfl

/-- C7 (amended): a bracketed field-options list holds zero or more
options, each optionally preceded (except the first) by a continuation
token; a continuation token before the first option is rejected, but
adjacent options do not require a separator. -/
theorem claim7_field_options_amended :
    parse 50 (mkToks ["message", "M", Lang.OPEN, "optional", "int32", "f",
        "=", "1", "[", ",", "a", "=", "1", "]", ";", Lang.CLOSE]) =
      .error ⟨some 1, "Illegal start of message field options in message M#f: ,"⟩ ∧
    parse 50 (mkToks ["message", "M", Lang.OPEN, "optional", "int32", "f",
        "=", "1", "[", "c", "=", "3", ",", "d", "=", "4", "]", ";",
        Lang.CLOSE]) =
      .ok { messages := [Message.mk "M"
              [{ rule := "optional", type := "int32", name := "f", id := 1,
                 options := [("c", Value.num 3), ("d", Value.num 4)] }]
              [] [] [] none false none] } ∧
    parse 50 (mkToks ["message", "M", Lang.OPEN, "optional", "int32", "f",
        "=", "1", "[", "c", "=", "3", "d", "=", "4", "]", ";", Lang.CLOSE]) =
      .ok { messages := [Message.mk "M"
              [{ rule := "optional", type := "int32", name := "f", id := 1,
                 options := [("c", Value.num 3), ("d", Value.num 4)] }]
              [] [] [] none false none] } ∧
    parse 50 (mkToks ["message", "M", Lang.OPEN, "optional", "int32", "f",
        "=", "1", "[", "]", ";", Lang.CLOSE]) =
      .ok { messages := [Message.mk "M"
              [{ rule := "optional", type := "int32", name := "f", id := 1,
                 options := [] }]
              [] [] [] none false none] } :=
  ⟨rfl, rfl, rfl, rfl⟩

/-- C8: `import public "x.proto";` consumes the `public` modifier and
produces an import entry identical to the one from `import "x.proto";` —
only the path is recorded, with no public flag. -/
theorem claim8_import_public :
    parseImport (mkToks ["public", "\"", "x.proto", "\"", ";"]) =
      .ok ("x.proto", ⟨[], 1, "\""⟩) ∧
    parseImport (mkToks ["\"", "x.proto", "\"", ";"]) =
      .ok ("x.proto", ⟨[], 1, "\""⟩) ∧
    parse 50 (mkToks ["import", "public", "\"", "x.proto", "\"", ";"]) =
      .ok { imports := ["x.proto"] } ∧
    parse 50 (mkToks ["import", "\"", "x.proto", "\"", ";"]) =
      .ok { imports := ["x.proto"] } :=
  ⟨rfl, rfl, rfl, rfl⟩

/-- C9: `package` may appear at most once — whenever the schema under
construction already records a package, a further `package` token fails
with the illegal-ordering error even in header mode; a single header-phase
package with a valid qualified name and terminator is recorded. -/
theorem claim9_package_once :
    (∀ (fuel : Nat) (tl : TopLevel) (p : String) (l li : Nat)
        (r : List (String × Nat)) (sw : String),
        parseTop (fuel + 1) { tl with package := some p } true
            ⟨("package", l) :: r, li, sw⟩ =
          .error ⟨some l, "Illegal package"⟩) ∧
    parse 50 (mkToks ["package", "a", ";", "package", "b", ";"]) =
      .error ⟨some 1, "Illegal package"⟩ ∧
    parse 50 (mkToks ["package", "a.b", ";"]) = .ok { package := some "a.b" } :=
  ⟨fun _ _ _ _ _ _ _ => rfl, rfl, rfl⟩

/-- C10: in an RPC method, the request type token is validated against the
type-reference grammar, but the response type token is stored verbatim
with no grammar validation: every token `X` is accepted as the response as
long as the closing parenthesis follows. -/
theorem claim10_rpc_response_unvalidated :
    (∀ X : String, ∃ stf,
        parseServiceRPC 50 "S" "rpc"
            (mkToks ["M", "(", "Req", ")", "returns", "(", X, ")", ";"]) =
          .ok (("rpc", "M",
            { request := some "Req", response := some X, options := [] }), stf)) ∧
    parse 50 (mkToks ["service", "S", Lang.OPEN, "rpc", "M", "(", "1bad",
        ")", "returns", "(", "Res", ")", ";", Lang.CLOSE]) =
      .error ⟨some 1, "Illegal request type in RPC service S#M: 1bad"⟩ :=
  ⟨fun _ => ⟨_, rfl⟩, rfl⟩

/-- C1 counterexample: the claim says a top-level `service` declaration
closes the header phase, so the subsequent `package` would have to fail;
but it parses successfully. -/
theorem claim1_counterexample :
    parse 50 (mkToks ["service", "S", Lang.OPEN, Lang.CLOSE, "package",
        "p", ";"]) =
      .ok { package := some "p", services := [⟨"S", [], []⟩] } := rfl

/-- C1 (amended): only top-level `message` and `enum` declarations close
the header phase — after one of them, a subsequent top-level `package`,
`import`, or `option` fails with an illegal-ordering error citing the
keyword's line — while `service`, `extend`, and the ignored `syntax`
directive leave the header phase open. -/
theorem claim1_header_ordering_amended :
    (∀ (fuel : Nat) (tl : TopLevel) (l li : Nat)
        (r : List (String × Nat)) (sw : String),
        parseTop (fuel + 1) tl false ⟨("package", l) :: r, li, sw⟩ =
          .error ⟨some l, "Illegal package"⟩) ∧
    (∀ (fuel : Nat) (tl : TopLevel) (l li : Nat)
        (r : List (String × Nat)) (sw : String),
        parseTop (fuel + 1) tl false ⟨("import", l) :: r, li, sw⟩ =
          .error ⟨some l, "Illegal import"⟩) ∧
    (∀ (fuel : Nat) (tl : TopLevel) (l li : Nat)
        (r : List (String × Nat)) (sw : String),
        parseTop (fuel + 1) tl false ⟨("option", l) :: r, li, sw⟩ =
          .error ⟨some l, "Illegal option"⟩) ∧
    parse 50 (mkToks ["message", "M", Lang.OPEN, Lang.CLOSE, "package",
        "p", ";"]) = .error ⟨some 1, "Illegal package"⟩ ∧
    parse 50 (mkToks ["enum", "E", Lang.OPEN, "A", "=", "1", ";",
        Lang.CLOSE, "import", "\"", "x", "\"", ";"]) =
      .error ⟨some 1, "Illegal import"⟩ ∧
    parse 50 (mkToks ["syntax", "=", "proto2", ";", "package", "p", ";"]) =
      .ok { package := some "p" } ∧
    parse 50 (mkToks ["extend", "T", Lang.OPEN, Lang.CLOSE, "option", "a",
        "=", "1", ";"]) =
      .ok { messages := [Message.mk "" [] [] [] [] none false (some "T")],
            options := [("a", Value.num 1)] } :=
  ⟨fun _ _ _ _ _ _ => rfl, fun _ _ _ _ _ _ => rfl, fun _ _ _ _ _ _ => rfl,
   rfl, rfl, rfl, rfl⟩

/-- C6 counterexample: the claim says every parse failure carries a message
citing the 1-based line number, but the group-capitalization error is
produced with no line at all. -/
theorem claim6_counterexample :
    parse 50 (mkToks ["message", "M", Lang.OPEN, "optional", "group",
        "result", "=", "2", Lang.OPEN, Lang.CLOSE, Lang.CLOSE]) =
      .error ⟨none, "Group names must start with a capital letter"⟩ := rfl

/-- C6 (amended): parsing is all-or-nothing — `parse` returns either a
schema or a single error, never a partial AST — and the error cites the
1-based line number at which it was detected, except on four line-less
failure paths: the group-capitalization error, the TypeErrors raised when
end of input is dereferenced at the RPC `returns` position or at an
extensions range bound, and the TypeError raised when a group inside an
`extend` block is pushed onto the record's absent `messages` array.  Each
line-less TypeError path is also exhibited on a concrete input. -/
theorem claim6_error_line_amended :
    (∀ (fuel : Nat) (st : TokState) (e : ParseErr),
        parse fuel st = .error e →
        (∃ l, e.line = some l) ∨
          e.msg = "Group names must start with a capital letter" ∨
          e.msg = "TypeError: Cannot read property toLowerCase of null" ∨
          e.msg = "TypeError: Cannot read property charAt of null" ∨
          e.msg = "TypeError: Cannot read property push of undefined") ∧
    parse 50 (mkToks ["service", "S", Lang.OPEN, "rpc", "M", "(", "Req",
        ")"]) =
      .error ⟨none, "TypeError: Cannot read property toLowerCase of null"⟩ ∧
    parse 50 (mkToks ["message", "M", Lang.OPEN, "extensions"]) =
      .error ⟨none, "TypeError: Cannot read property charAt of null"⟩ ∧
    parse 50 (mkToks ["extend", "T", Lang.OPEN, "optional", "group", "G",
        "=", "1", Lang.OPEN, Lang.CLOSE, Lang.CLOSE]) =
      .error ⟨none, "TypeError: Cannot read property push of undefined"⟩ :=
  ⟨fun fuel st e h => parseTop_EOk fuel {} true st e h, rfl, rfl, rfl⟩

/-- C6 witness: the amended universal applied at a concrete failing input
(an illegal top-level token on line 1). -/
theorem claim6_error_line_amended_witness :
    (∃ l, (⟨some 1, "Illegal token: x1"⟩ : ParseErr).line = some l) ∨
      (⟨some 1, "Illegal token: x1"⟩ : ParseErr).msg =
        "Group names must start with a capital letter" ∨
      (⟨some 1, "Illegal token: x1"⟩ : ParseErr).msg =
        "TypeError: Cannot read property toLowerCase of null" ∨
      (⟨some 1, "Illegal token: x1"⟩ : ParseErr).msg =
        "TypeError: Cannot read property charAt of null" ∨
      (⟨some 1, "Illegal token: x1"⟩ : ParseErr).msg =
        "TypeError: Cannot read property push of undefined" :=
  claim6_error_line_amended.1 1 (mkToks ["x1"]) ⟨some 1, "Illegal token: x1"⟩ rfl

end DotProto
